import Mathlib

/-!
Verification development for the `optimize` repository: a website-archive
optimization pipeline (Archive Reader, Type Classifier, Transform Registry,
Pipeline Orchestrator, Stats Aggregator, Archive Writer) fronted by a React
dashboard.  The React frontend (`Dashboard.tsx`, `FileUpload`) is embedded
directly from its source.  The backend pipeline itself is not present in the
repository snapshot (only its Dockerfile, `requirements.txt` and its frontend
caller are), so the pipeline components are modelled from the specification
text, as marked on each definition.
-/

namespace Optimize

/-! ## Character-list string helpers (kernel-computable replacements for
`String.endsWith` / `String.splitOn`, which do not reduce) -/

/-- True when `s` ends with `suffixStr`, computed on the underlying
character lists. -/
def strEndsWith (s suffixStr : String) : Bool :=
  suffixStr.data.isSuffixOf s.data

/-- Split a character list on a separator character. -/
def splitOnChar (sep : Char) : List Char → List (List Char)
  | [] => [[]]
  | c :: cs =>
      if c == sep then [] :: splitOnChar sep cs
      else
        match splitOnChar sep cs with
        | [] => [[c]]
        | h :: t => (c :: h) :: t

/-- Modelled from the spec: the Archive Reader (absent from the repository
snapshot) "must reject path entries that escape the archive root (`../`
traversal)".  A path is unsafe when one of its slash-separated components is
`..`, or when it is absolute. -/
def isUnsafePath (p : String) : Bool :=
  (splitOnChar '/' p.data).contains ['.', '.'] ||
    (match p.data with
     | '/' :: _ => true
     | _ => false)

/-! ## Data model (spec section 3) -/

/-- Modelled from the spec: enumerated variant of the Type Classifier,
`HTML | CSS | SCSS | JavaScript | TypeScript | Image | Other`. -/
inductive FileCategory where
  | HTML
  | CSS
  | SCSS
  | JavaScript
  | TypeScript
  | Image
  | Other
deriving DecidableEq

/-- Modelled from the spec: the per-file transform status
`Success | Skipped | Failed`. -/
inductive OutcomeStatus where
  | Success
  | Skipped
  | Failed
deriving DecidableEq

/-- Modelled from the spec: `SourceFile = { path, bytes, declaredType }`,
produced by the Archive Reader (absent from the repository snapshot).
Bytes are modelled as a list of naturals. -/
structure SourceFile where
  path : String
  bytes : List Nat
  declaredType : Option String := none
deriving DecidableEq

/-- Modelled from the spec: `TransformOutcome = { path, category,
originalSize, optimizedSize, status, errorDetail, outputBytes }`, created
once per input file. -/
structure TransformOutcome where
  path : String
  category : FileCategory
  originalSize : Nat
  optimizedSize : Nat
  status : OutcomeStatus
  errorDetail : Option String
  outputBytes : List Nat
deriving DecidableEq

/-- Modelled from the spec: per-category `{count, originalBytes,
optimizedBytes}` statistics of the report. -/
structure CategoryStats where
  count : Nat := 0
  originalBytes : Nat := 0
  optimizedBytes : Nat := 0
deriving DecidableEq

/-- Modelled from the spec: the caller-facing `OptimizationReport`.  The
spec's batch invariant `filesOptimized + filesFailed + filesSkipped ==
totalFiles` requires a `filesSkipped` counter, so the model carries one.
`sizeReductionPercent` is a rational (the spec's float). -/
structure OptimizationReport where
  totalFiles : Nat
  filesOptimized : Nat
  filesFailed : Nat
  filesSkipped : Nat
  totalOriginalBytes : Nat
  totalOptimizedBytes : Nat
  sizeReductionPercent : ℚ
  perCategoryStats : List (FileCategory × CategoryStats)
  failures : List (String × Option String)
deriving DecidableEq

/-- Modelled from the spec: the fatal / batch-level error taxonomy of the
error-handling design (section 7). -/
inductive FatalError where
  | CorruptArchive
  | ArchiveTooLarge
  | EmptyArchive
  | UnsafePath
  | SourceFetchFailed
  | Timeout
deriving DecidableEq

/-- Modelled from the spec: one entry of the (already structurally parsed)
input archive handed to the Archive Reader: a path, raw bytes, a directory
flag, and an optional declared type. -/
structure ArchiveEntry where
  path : String
  bytes : List Nat
  isDir : Bool := false
  declaredType : Option String := none
deriving DecidableEq

/-- The configured archive size ceiling, from the backend Dockerfile
declaration `ENV MAX_FILE_SIZE=52428800` (src/unnamed/part_001); 52428800
bytes is 50 MiB. -/
def MAX_FILE_SIZE : Nat := 52428800

/-- Modelled from the spec: the pipeline configuration.  `sizeCeiling` is the
configurable archive ceiling; `timeBudgetExceeded` models the external
wall-clock-budget / cancellation signal of the concurrency model as an
explicit input. -/
structure Config where
  sizeCeiling : Nat := MAX_FILE_SIZE
  timeBudgetExceeded : Bool := false
deriving DecidableEq

/-- The default configuration: ceiling as declared in the Dockerfile, no
time-budget breach. -/
def defaultConfig : Config := {}

/-- Modelled from the spec: the terminal states of the per-batch state
machine `Pending → Running → Completed | Aborted`.  `Aborted` carries only a
single top-level error and no outcomes, so no partial archive can be
produced from it. -/
inductive BatchResult where
  | Aborted (e : FatalError)
  | Completed (outcomes : List TransformOutcome)
deriving DecidableEq

/-! ## Type Classifier (spec section 4.2) -/

/-- Modelled from the spec: the explicit-extension precedence table of
`classify` (`.html/.htm`, `.css`, `.scss`, `.js/.jsx`, `.ts/.tsx`, common
image extensions). -/
def extCategory (path : String) : Option FileCategory :=
  if strEndsWith path ".html" || strEndsWith path ".htm" then some .HTML
  else if strEndsWith path ".css" then some .CSS
  else if strEndsWith path ".scss" then some .SCSS
  else if strEndsWith path ".js" || strEndsWith path ".jsx" then some .JavaScript
  else if strEndsWith path ".ts" || strEndsWith path ".tsx" then some .TypeScript
  else if strEndsWith path ".png" || strEndsWith path ".jpg" ||
          strEndsWith path ".jpeg" || strEndsWith path ".gif" ||
          strEndsWith path ".webp" || strEndsWith path ".ico" then some .Image
  else none

/-- Modelled from the spec: magic-byte content sniffing over a bounded
content prefix, used when the extension is absent or ambiguous (PNG, JPEG
and GIF signatures), falling back to `Other`. -/
def sniffCategory (sniffBytes : List Nat) : FileCategory :=
  match sniffBytes with
  | 137 :: 80 :: 78 :: 71 :: _ => .Image
  | 255 :: 216 :: 255 :: _ => .Image
  | 71 :: 73 :: 70 :: 56 :: _ => .Image
  | _ => .Other

/-- The bounded number of leading bytes the classifier may inspect. -/
def sniffLimit : Nat := 8

/-- Modelled from the spec: `classify(path, sniffedContentPrefix) →
FileCategory`: extension match first, then content sniffing, then `Other`. -/
def classify (path : String) (sniffBytes : List Nat) : FileCategory :=
  match extCategory path with
  | some c => c
  | none => sniffCategory sniffBytes

/-! ## Transform Registry (spec section 4.3)

The individual minification algorithms are library calls excluded from the
spec's implementation budget; they are modelled here by the simplest
transforms exhibiting the specified outcome structure: minification removes
whitespace bytes, SCSS compilation and JavaScript parsing are modelled by a
brace-balance check whose failure is a `Failed` outcome with the original
bytes passed through, and image re-encoding is modelled as a `Skipped`
passthrough. -/

/-- True for the ASCII whitespace bytes (space, tab, LF, CR). -/
def isWSByte (b : Nat) : Bool :=
  b == 32 || b == 9 || b == 10 || b == 13

/-- Modelled from the spec: the minifier behind the HTML/CSS/JS transforms,
as whitespace-byte removal. -/
def minifyBytes (bs : List Nat) : List Nat :=
  bs.filter (fun b => !isWSByte b)

/-- Brace-depth scan: `some d` is the final depth starting from `d0`;
`none` means a close brace appeared at depth zero. -/
def braceDepth : List Nat → Nat → Option Nat
  | [], d => some d
  | b :: bs, d =>
      if b == 123 then braceDepth bs (d + 1)
      else if b == 125 then
        match d with
        | 0 => none
        | d' + 1 => braceDepth bs d'
      else braceDepth bs d

/-- Modelled from the spec: the compile/parse check of the SCSS and
JavaScript transforms (an unbalanced `{` is the spec's own example of a
malformed SCSS file). -/
def balancedBraces (bs : List Nat) : Bool :=
  braceDepth bs 0 == some 0

/-- Modelled from the spec: the uniform Transform Registry contract
`optimize(bytes, category, options) → (outputBytes, status, errorDetail)`.
Compile/parse errors yield `Failed` with the original bytes passed through;
images and uncategorized files pass through with `Skipped`. -/
def applyTransform (c : FileCategory) (bs : List Nat) :
    List Nat × OutcomeStatus × Option String :=
  match c with
  | .HTML => (minifyBytes bs, .Success, none)
  | .CSS => (minifyBytes bs, .Success, none)
  | .SCSS =>
      if balancedBraces bs then (minifyBytes bs, .Success, none)
      else (bs, .Failed, some "SCSS compile error")
  | .JavaScript =>
      if balancedBraces bs then (minifyBytes bs, .Success, none)
      else (bs, .Failed, some "JavaScript parse error")
  | .TypeScript => (bs, .Skipped, none)
  | .Image => (bs, .Skipped, none)
  | .Other => (bs, .Skipped, none)

/-- Modelled from the spec: classify one SourceFile and apply its transform,
producing the file's single TransformOutcome. -/
def transformFile (f : SourceFile) : TransformOutcome :=
  let c := classify f.path (f.bytes.take sniffLimit)
  let r := applyTransform c f.bytes
  { path := f.path
    category := c
    originalSize := f.bytes.length
    optimizedSize := r.1.length
    status := r.2.1
    errorDetail := r.2.2
    outputBytes := r.1 }

/-! ## Archive Reader (spec section 4.1) -/

/-- The regular-file entries of an archive (directory entries are
skipped). -/
def regularEntries (entries : List ArchiveEntry) : List ArchiveEntry :=
  entries.filter (fun e => !e.isDir)

/-- Cumulative uncompressed size of the archive's regular files. -/
def entriesSize (entries : List ArchiveEntry) : Nat :=
  ((regularEntries entries).map (fun e => e.bytes.length)).sum

/-- Modelled from the spec: the Archive Reader contract — produce the
ordered SourceFile sequence, or fail with `ArchiveTooLarge` when the
cumulative size exceeds the ceiling, `UnsafePath` when an entry escapes the
archive root, or `EmptyArchive` when there is no regular file. -/
def readArchive (cfg : Config) (entries : List ArchiveEntry) :
    Except FatalError (List SourceFile) :=
  let regs := regularEntries entries
  if cfg.sizeCeiling < entriesSize entries then .error .ArchiveTooLarge
  else if regs.any (fun e => isUnsafePath e.path) then .error .UnsafePath
  else if regs.isEmpty then .error .EmptyArchive
  else .ok (regs.map (fun e =>
    { path := e.path, bytes := e.bytes, declaredType := e.declaredType }))

/-! ## Pipeline Orchestrator (spec sections 4.4, 5) -/

/-- Placeholder SourceFile for out-of-range schedule indices. -/
def dummyFile : SourceFile := { path := "", bytes := [] }

/-- Modelled from the spec: concurrent dispatch.  The worker pool's task
completion order is abstracted as an explicit schedule `σ` (a permutation of
the file indices); each completed task carries its original archive index. -/
def dispatch (files : List SourceFile) (σ : List Nat) :
    List (Nat × TransformOutcome) :=
  σ.map (fun i => (i, transformFile (files.getD i dummyFile)))

/-- Ordering of indexed outcomes by original archive index. -/
def keyLE (a b : Nat × TransformOutcome) : Prop := a.1 ≤ b.1

/-- Strict ordering of indexed outcomes by original archive index. -/
def keyLT (a b : Nat × TransformOutcome) : Prop := a.1 < b.1

instance : DecidableRel keyLE := fun a b => Nat.decLe a.1 b.1

instance : IsTotal (Nat × TransformOutcome) keyLE :=
  ⟨fun a b => Nat.le_total a.1 b.1⟩

instance : IsTrans (Nat × TransformOutcome) keyLE :=
  ⟨fun _ _ _ => Nat.le_trans⟩

instance : IsAntisymm (Nat × TransformOutcome) keyLT :=
  ⟨fun _ _ h₁ h₂ => absurd h₁ (Nat.lt_asymm h₂)⟩

/-- Modelled from the spec: the Writer-side re-sort — outcomes collected in
completion order are re-sorted by original archive index before
serialization, and the index tags are dropped. -/
def collectOutcomes (files : List SourceFile) (σ : List Nat) :
    List TransformOutcome :=
  (List.insertionSort keyLE (dispatch files σ)).map Prod.snd

/-- Cumulative byte size of a SourceFile sequence. -/
def filesSize (files : List SourceFile) : Nat :=
  (files.map (fun f => f.bytes.length)).sum

/-- Modelled from the spec: the batch state machine's terminal step.  Only a
resource-limit breach (wall-clock budget exceeded, archive too large) aborts
the batch; otherwise the batch completes with one outcome per file,
regardless of per-file failures. -/
def orchestrate (cfg : Config) (files : List SourceFile) (σ : List Nat) :
    BatchResult :=
  if cfg.timeBudgetExceeded then .Aborted .Timeout
  else if cfg.sizeCeiling < filesSize files then .Aborted .ArchiveTooLarge
  else .Completed (collectOutcomes files σ)

/-! ## Stats Aggregator (spec section 4.5) -/

/-- All file categories, in declaration order. -/
def allCategories : List FileCategory :=
  [.HTML, .CSS, .SCSS, .JavaScript, .TypeScript, .Image, .Other]

/-- Add one outcome to a per-category stats record. -/
def bumpStats (s : CategoryStats) (o : TransformOutcome) : CategoryStats :=
  { count := s.count + 1
    originalBytes := s.originalBytes + o.originalSize
    optimizedBytes := s.optimizedBytes + o.optimizedSize }

/-- Fold one outcome into the per-category stats table. -/
def updateCats (tbl : List (FileCategory × CategoryStats))
    (o : TransformOutcome) : List (FileCategory × CategoryStats) :=
  tbl.map (fun pr => if pr.1 = o.category then (pr.1, bumpStats pr.2 o) else pr)

/-- Modelled from the spec: the aggregation accumulator, folded over the
outcome sequence in a single pass (percent is computed at finalization). -/
structure ReportAcc where
  totalFiles : Nat := 0
  filesOptimized : Nat := 0
  filesFailed : Nat := 0
  filesSkipped : Nat := 0
  totalOriginalBytes : Nat := 0
  totalOptimizedBytes : Nat := 0
  perCategoryStats : List (FileCategory × CategoryStats) :=
    allCategories.map (fun c => (c, {}))
  failures : List (String × Option String) := []
deriving DecidableEq

/-- Modelled from the spec: fold one TransformOutcome into the running
totals; failures are appended in input order. -/
def stepAcc (acc : ReportAcc) (o : TransformOutcome) : ReportAcc :=
  { totalFiles := acc.totalFiles + 1
    filesOptimized := acc.filesOptimized + (if o.status = .Success then 1 else 0)
    filesFailed := acc.filesFailed + (if o.status = .Failed then 1 else 0)
    filesSkipped := acc.filesSkipped + (if o.status = .Skipped then 1 else 0)
    totalOriginalBytes := acc.totalOriginalBytes + o.originalSize
    totalOptimizedBytes := acc.totalOptimizedBytes + o.optimizedSize
    perCategoryStats := updateCats acc.perCategoryStats o
    failures := acc.failures ++
      (if o.status = .Failed then [(o.path, o.errorDetail)] else []) }

/-- Modelled from the spec: finalization — `sizeReductionPercent =
(totalOriginalBytes - totalOptimizedBytes) / totalOriginalBytes * 100`,
defined as `0` when `totalOriginalBytes == 0` (never divides by zero). -/
def finalizeAcc (acc : ReportAcc) : OptimizationReport :=
  { totalFiles := acc.totalFiles
    filesOptimized := acc.filesOptimized
    filesFailed := acc.filesFailed
    filesSkipped := acc.filesSkipped
    totalOriginalBytes := acc.totalOriginalBytes
    totalOptimizedBytes := acc.totalOptimizedBytes
    sizeReductionPercent :=
      if acc.totalOriginalBytes = 0 then 0
      else ((acc.totalOriginalBytes : ℚ) - (acc.totalOptimizedBytes : ℚ)) /
             (acc.totalOriginalBytes : ℚ) * 100
    perCategoryStats := acc.perCategoryStats
    failures := acc.failures }

/-- Modelled from the spec: fold the outcome sequence into the final
OptimizationReport in a single pass. -/
def aggregate (outcomes : List TransformOutcome) : OptimizationReport :=
  finalizeAcc (outcomes.foldl stepAcc {})

/-! ## Archive Writer and whole pipeline (spec section 4.6) -/

/-- Modelled from the spec: serialize `(path, outputBytes)` pairs in original
archive order (failed files already carry their original bytes as
`outputBytes`). -/
def writeArchive (outcomes : List TransformOutcome) : List (String × List Nat) :=
  outcomes.map (fun o => (o.path, o.outputBytes))

/-- Modelled from the spec: the whole pipeline, Reader → Orchestrator
(Classifier + Transform Registry) → Aggregator + Writer.  A fatal error
yields a single `Except.error` and no output archive. -/
def runPipeline (cfg : Config) (entries : List ArchiveEntry) (σ : List Nat) :
    Except FatalError (List (String × List Nat) × OptimizationReport) :=
  match readArchive cfg entries with
  | .error e => .error e
  | .ok files =>
      match orchestrate cfg files σ with
      | .Aborted e => .error e
      | .Completed outcomes => .ok (writeArchive outcomes, aggregate outcomes)

/-- Reinterpret an output archive as an input archive (for the idempotence
property of re-running the pipeline on its own output). -/
def outputEntries (out : List (String × List Nat)) : List ArchiveEntry :=
  out.map (fun pr => { path := pr.1, bytes := pr.2 })

/-- Number of outcomes with a given status. -/
def countStatus (s : OutcomeStatus) (outs : List TransformOutcome) : Nat :=
  outs.countP (fun o => o.status = s)

/-- The SourceFile sequence the Archive Reader hands over on success. -/
def readerFiles (entries : List ArchiveEntry) : List SourceFile :=
  (regularEntries entries).map (fun e =>
    { path := e.path, bytes := e.bytes, declaredType := e.declaredType })

/-- A SourceFile as it reappears when the pipeline's own output archive is
fed back in: same path, the first run's output bytes. -/
def outputFile (f : SourceFile) : SourceFile :=
  { path := f.path, bytes := (transformFile f).outputBytes }

/-- The outcome a file produces on a second pipeline run over the first
run's output: identical except that the original size is now the first
run's optimized size. -/
def refreshOutcome (f : SourceFile) : TransformOutcome :=
  { path := (transformFile f).path
    category := (transformFile f).category
    originalSize := (transformFile f).optimizedSize
    optimizedSize := (transformFile f).optimizedSize
    status := (transformFile f).status
    errorDetail := (transformFile f).errorDetail
    outputBytes := (transformFile f).outputBytes }

/-- A tiny concrete archive used to evaluate the pipeline on explicit
inputs: one CSS file and one passthrough file, both empty. -/
def entriesW : List ArchiveEntry :=
  [{ path := "a.css", bytes := [] }, { path := "b.txt", bytes := [] }]

/-- The output archive the pipeline produces for `entriesW`. -/
def outW : List (String × List Nat) :=
  [("a.css", []), ("b.txt", [])]

/-- The report the pipeline produces for `entriesW`. -/
def repW : OptimizationReport :=
  { totalFiles := 2
    filesOptimized := 1
    filesFailed := 0
    filesSkipped := 1
    totalOriginalBytes := 0
    totalOptimizedBytes := 0
    sizeReductionPercent := 0
    perCategoryStats := [(.HTML, {}), (.CSS, { count := 1 }), (.SCSS, {}),
      (.JavaScript, {}), (.TypeScript, {}), (.Image, {}), (.Other, { count := 1 })]
    failures := [] }

end Optimize

namespace Frontend

/-- A minimal JSON value model for the report payload carried in the
`X-Optimization-Report` response header (Dashboard.tsx). -/
inductive Json where
  | null
  | num (q : ℚ)
  | str (s : String)
  | obj (fields : List (String × Json))

/-- Field lookup on a JSON object (first match), `none` on non-objects. -/
def Json.lookup : Json → String → Option Json
  | .obj fields, k => List.lookup k fields
  | _, _ => none

/-- The Dashboard's "Files Processed" accessor: `Dashboard.tsx` line 424
reads `result.report.stats?.total_files`. -/
def dashboardTotalFiles (report : Json) : Option Json :=
  (report.lookup "stats").bind (fun s => s.lookup "total_files")

/-- The Dashboard's "Size Reduction" accessor: `Dashboard.tsx` line 432
reads `result.report.stats?.size_reduction`. -/
def dashboardSizeReduction (report : Json) : Option Json :=
  (report.lookup "stats").bind (fun s => s.lookup "size_reduction")

/-- A report shaped the way the Dashboard consumer reads it: snake_case
fields under a `stats` object. -/
def codeShapedReport (n q : ℚ) : Json :=
  .obj [("stats", .obj [("total_files", .num n), ("size_reduction", .num q)])]

/-- A report carrying the field names the spec declares as the stable
contract (`totalFiles`, `sizeReductionPercent`, a failures list). -/
def specNamedReport : Json :=
  .obj [("totalFiles", .num 3), ("sizeReductionPercent", .num 12),
        ("failures", .obj [])]

/-- The server response as seen by `handleFileUpload` (Dashboard.tsx):
HTTP ok flag, error detail of a failed response, response body blob, and the
parsed `X-Optimization-Report` header when present. -/
structure UploadResponse where
  ok : Bool
  errDetail : Option String
  blob : List Nat
  reportHeader : Option Json

/-- The result value `handleFileUpload` stores on success (Dashboard.tsx
lines 105-109); the object URL is identified with the blob it wraps. -/
structure UploadResult where
  downloadBlob : List Nat
  report : Option Json
  message : String

/-- The component state `handleFileUpload` leaves behind: `result` and
`error` (both reset to null on entry). -/
structure UploadState where
  result : Option UploadResult
  error : Option String

/-- `verifyZipFile` (Dashboard.tsx lines 120-140): a blob passes only when
it has at least 4 bytes and starts with the ZIP magic number `PK`
(0x50 0x4B). -/
def verifyZipFile (blob : List Nat) : Bool :=
  if blob.length < 4 then false
  else
    match blob with
    | b0 :: b1 :: _ => (b0 == 0x50) && (b1 == 0x4B)
    | _ => false

/-- `handleFileUpload` (Dashboard.tsx lines 73-117): a non-ok response is an
error (its detail or `Upload failed`); a blob failing `verifyZipFile` is the
error `Invalid ZIP file received from server`; otherwise the result carries
the blob and the report parsed from the `X-Optimization-Report` header. -/
def handleFileUpload (resp : UploadResponse) : UploadState :=
  if resp.ok = false then
    { result := none, error := some (resp.errDetail.getD "Upload failed") }
  else if verifyZipFile resp.blob = false then
    { result := none, error := some "Invalid ZIP file received from server" }
  else
    { result := some
        { downloadBlob := resp.blob
          report := resp.reportHeader
          message := "Optimization complete!" }
      error := none }

/-- `handleDownload` (Dashboard.tsx lines 142-156) returns immediately when
there is no result, so a download is offered exactly when a result is
present. -/
def downloadOffered (st : UploadState) : Bool :=
  st.result.isSome

/-- A file as seen by the dropzone (FileUpload component,
src/unnamed/part_000). -/
structure DroppedFile where
  name : String
  size : Nat
deriving DecidableEq

/-- `onDrop` (src/unnamed/part_000 lines 60-66) takes `acceptedFiles[0]` and
calls `onFileUpload` on it only when it exists: the list of forwarded
files. -/
def onDropCalls (acceptedFiles : List DroppedFile) : List DroppedFile :=
  match acceptedFiles.head? with
  | some f => [f]
  | none => []

/-- The dropzone configuration record (src/unnamed/part_000 lines 68-76). -/
structure DropzoneConfig where
  acceptTypes : List (String × List String)
  maxSize : Nat
  multiple : Bool
deriving DecidableEq

/-- The `useDropzone` configuration of the FileUpload component: ZIP MIME
types only, 100 MB ceiling, multiple selection disabled. -/
def fileUploadDropzone : DropzoneConfig :=
  { acceptTypes := [("application/zip", [".zip"]),
                    ("application/x-zip-compressed", [".zip"])]
    maxSize := 100 * 1024 * 1024
    multiple := false }

end Frontend

namespace Optimize

/-! ## Aggregator lemmas -/

lemma foldl_stepAcc_totalFiles (outs : List TransformOutcome) (acc : ReportAcc) :
    (outs.foldl stepAcc acc).totalFiles = acc.totalFiles + outs.length := by
  induction outs generalizing acc with
  | nil => simp
  | cons o t ih =>
      simp only [List.foldl_cons, ih, List.length_cons, stepAcc]
      omega

lemma foldl_stepAcc_filesOptimized (outs : List TransformOutcome) (acc : ReportAcc) :
    (outs.foldl stepAcc acc).filesOptimized =
      acc.filesOptimized + countStatus .Success outs := by
  induction outs generalizing acc with
  | nil => simp [countStatus]
  | cons o t ih =>
      simp only [List.foldl_cons, ih, countStatus, List.countP_cons, stepAcc]
      by_cases h : o.status = .Success <;> simp [h, countStatus] <;> omega

lemma foldl_stepAcc_filesFailed (outs : List TransformOutcome) (acc : ReportAcc) :
    (outs.foldl stepAcc acc).filesFailed =
      acc.filesFailed + countStatus .Failed outs := by
  induction outs generalizing acc with
  | nil => simp [countStatus]
  | cons o t ih =>
      simp only [List.foldl_cons, ih, countStatus, List.countP_cons, stepAcc]
      by_cases h : o.status = .Failed <;> simp [h, countStatus] <;> omega

lemma foldl_stepAcc_filesSkipped (outs : List TransformOutcome) (acc : ReportAcc) :
    (outs.foldl stepAcc acc).filesSkipped =
      acc.filesSkipped + countStatus .Skipped outs := by
  induction outs generalizing acc with
  | nil => simp [countStatus]
  | cons o t ih =>
      simp only [List.foldl_cons, ih, countStatus, List.countP_cons, stepAcc]
      by_cases h : o.status = .Skipped <;> simp [h, countStatus] <;> omega

lemma foldl_stepAcc_totalOriginalBytes (outs : List TransformOutcome) (acc : ReportAcc) :
    (outs.foldl stepAcc acc).totalOriginalBytes =
      acc.totalOriginalBytes + (outs.map (fun o => o.originalSize)).sum := by
  induction outs generalizing acc with
  | nil => simp
  | cons o t ih =>
      simp only [List.foldl_cons, ih, List.map_cons, List.sum_cons, stepAcc]
      omega

lemma foldl_stepAcc_totalOptimizedBytes (outs : List TransformOutcome) (acc : ReportAcc) :
    (outs.foldl stepAcc acc).totalOptimizedBytes =
      acc.totalOptimizedBytes + (outs.map (fun o => o.optimizedSize)).sum := by
  induction outs generalizing acc with
  | nil => simp
  | cons o t ih =>
      simp only [List.foldl_cons, ih, List.map_cons, List.sum_cons, stepAcc]
      omega

lemma countStatus_partition (outs : List TransformOutcome) :
    countStatus .Success outs + countStatus .Failed outs +
      countStatus .Skipped outs = outs.length := by
  induction outs with
  | nil => simp [countStatus]
  | cons o t ih =>
      simp only [countStatus, List.countP_cons, List.length_cons] at *
      cases h : o.status <;> simp [h] <;> omega

lemma aggregate_totalFiles (outs : List TransformOutcome) :
    (aggregate outs).totalFiles = outs.length := by
  simp [aggregate, finalizeAcc, foldl_stepAcc_totalFiles]

lemma aggregate_counts (outs : List TransformOutcome) :
    (aggregate outs).filesOptimized = countStatus .Success outs ∧
    (aggregate outs).filesFailed = countStatus .Failed outs ∧
    (aggregate outs).filesSkipped = countStatus .Skipped outs := by
  refine ⟨?_, ?_, ?_⟩ <;>
    simp [aggregate, finalizeAcc, foldl_stepAcc_filesOptimized,
      foldl_stepAcc_filesFailed, foldl_stepAcc_filesSkipped]

lemma aggregate_totalOriginalBytes (outs : List TransformOutcome) :
    (aggregate outs).totalOriginalBytes = (outs.map (fun o => o.originalSize)).sum := by
  simp [aggregate, finalizeAcc, foldl_stepAcc_totalOriginalBytes]

lemma aggregate_totalOptimizedBytes (outs : List TransformOutcome) :
    (aggregate outs).totalOptimizedBytes = (outs.map (fun o => o.optimizedSize)).sum := by
  simp [aggregate, finalizeAcc, foldl_stepAcc_totalOptimizedBytes]

lemma aggregate_percent (outs : List TransformOutcome) :
    (aggregate outs).sizeReductionPercent =
      if (outs.map (fun o => o.originalSize)).sum = 0 then 0
      else (((outs.map (fun o => o.originalSize)).sum : ℚ) -
              ((outs.map (fun o => o.optimizedSize)).sum : ℚ)) /
            ((outs.map (fun o => o.originalSize)).sum : ℚ) * 100 := by
  simp [aggregate, finalizeAcc, foldl_stepAcc_totalOriginalBytes,
    foldl_stepAcc_totalOptimizedBytes, Function.comp_def]

end Optimize

namespace Optimize

/-! ## Orchestrator ordering lemmas: the Writer-side re-sort recovers the
original archive order from any dispatch/completion order -/

lemma map_getD_range {α : Type} (l : List α) (d : α) :
    (List.range l.length).map (fun i => l.getD i d) = l := by
  induction l with
  | nil => rfl
  | cons a t ih =>
      rw [List.length_cons, List.range_succ_eq_map, List.map_cons, List.map_map]
      refine congrArg (a :: ·) ?_
      simpa [Function.comp_def, List.getD] using ih

lemma dispatch_map_fst (files : List SourceFile) (σ : List Nat) :
    (dispatch files σ).map Prod.fst = σ := by
  simp [dispatch, List.map_map, Function.comp_def]

lemma dispatch_pairwise_range (files : List SourceFile) :
    (dispatch files (List.range files.length)).Pairwise keyLT := by
  unfold dispatch
  rw [List.pairwise_map]
  exact (List.pairwise_lt_range files.length).imp (fun h => h)

lemma dispatch_snd_range (files : List SourceFile) :
    (dispatch files (List.range files.length)).map Prod.snd =
      files.map transformFile := by
  unfold dispatch
  rw [List.map_map]
  have h := map_getD_range files dummyFile
  calc (List.range files.length).map
        (Prod.snd ∘ fun i => (i, transformFile (files.getD i dummyFile)))
      = (List.range files.length).map
          (transformFile ∘ fun i => files.getD i dummyFile) := rfl
    _ = ((List.range files.length).map (fun i => files.getD i dummyFile)).map
          transformFile := by rw [List.map_map]
    _ = files.map transformFile := by rw [h]

lemma insertionSort_eq_of_perm_of_pairwise {l canon : List (Nat × TransformOutcome)}
    (hp : l.Perm canon) (hc : canon.Pairwise keyLT) :
    List.insertionSort keyLE l = canon := by
  have hperm : (List.insertionSort keyLE l).Perm canon :=
    (List.perm_insertionSort keyLE l).trans hp
  have hle : (List.insertionSort keyLE l).Sorted keyLE :=
    List.sorted_insertionSort keyLE l
  have hnd : ((List.insertionSort keyLE l).map Prod.fst).Nodup := by
    have h₁ : ((List.insertionSort keyLE l).map Prod.fst).Perm
        (canon.map Prod.fst) := hperm.map Prod.fst
    have h₂ : (canon.map Prod.fst).Nodup := by
      have : (canon.map Prod.fst).Pairwise (· < ·) := by
        rw [List.pairwise_map]; exact hc
      exact this.imp (fun h => Nat.ne_of_lt h)
    exact h₁.nodup_iff.mpr h₂
  have hne : (List.insertionSort keyLE l).Pairwise (fun a b => a.1 ≠ b.1) := by
    have hpw : ((List.insertionSort keyLE l).map Prod.fst).Pairwise (· ≠ ·) := hnd
    rw [List.pairwise_map] at hpw
    exact hpw
  have hlt : (List.insertionSort keyLE l).Sorted keyLT := by
    have := (List.Pairwise.and hle hne)
    exact this.imp (fun h => Nat.lt_of_le_of_ne h.1 h.2)
  exact List.eq_of_perm_of_sorted hperm hlt hc

lemma collectOutcomes_eq (files : List SourceFile) {σ : List Nat}
    (hσ : σ.Perm (List.range files.length)) :
    collectOutcomes files σ = files.map transformFile := by
  unfold collectOutcomes
  have hp : (dispatch files σ).Perm (dispatch files (List.range files.length)) :=
    hσ.map _
  rw [insertionSort_eq_of_perm_of_pairwise hp (dispatch_pairwise_range files)]
  exact dispatch_snd_range files

end Optimize

namespace Optimize

/-! ## Transform lemmas: idempotence and size monotonicity -/

lemma isWSByte_ne_braces {b : Nat} (h : isWSByte b = true) :
    (b == 123) = false ∧ (b == 125) = false := by
  simp only [isWSByte, Bool.or_eq_true, beq_iff_eq] at h
  have h123 : b ≠ 123 := by omega
  have h125 : b ≠ 125 := by omega
  exact ⟨by simpa using h123, by simpa using h125⟩

lemma braceDepth_minify (bs : List Nat) (d : Nat) :
    braceDepth (minifyBytes bs) d = braceDepth bs d := by
  induction bs generalizing d with
  | nil => rfl
  | cons b t ih =>
      by_cases hw : isWSByte b = true
      · obtain ⟨h₁, h₂⟩ := isWSByte_ne_braces hw
        have hm : minifyBytes (b :: t) = minifyBytes t := by
          simp [minifyBytes, List.filter_cons, hw]
        rw [hm, ih]
        simp [braceDepth, h₁, h₂]
      · have hm : minifyBytes (b :: t) = b :: minifyBytes t := by
          simp [minifyBytes, List.filter_cons, eq_false_of_ne_true hw]
        rw [hm]
        by_cases h₁ : (b == 123) = true
        · simp [braceDepth, h₁, ih]
        · by_cases h₂ : (b == 125) = true
          · cases d with
            | zero => simp [braceDepth, eq_false_of_ne_true h₁, h₂]
            | succ d' => simp [braceDepth, eq_false_of_ne_true h₁, h₂, ih]
          · simp [braceDepth, eq_false_of_ne_true h₁, eq_false_of_ne_true h₂, ih]

lemma balancedBraces_minify (bs : List Nat) :
    balancedBraces (minifyBytes bs) = balancedBraces bs := by
  unfold balancedBraces
  rw [braceDepth_minify]

lemma minify_idem (bs : List Nat) :
    minifyBytes (minifyBytes bs) = minifyBytes bs := by
  simp [minifyBytes, List.filter_filter]

lemma applyTransform_idem (c : FileCategory) (bs : List Nat) :
    applyTransform c (applyTransform c bs).1 = applyTransform c bs := by
  cases c with
  | HTML => simp [applyTransform, minify_idem]
  | CSS => simp [applyTransform, minify_idem]
  | SCSS =>
      by_cases h : balancedBraces bs
      · simp [applyTransform, h, balancedBraces_minify, minify_idem]
      · simp [applyTransform, h]
  | JavaScript =>
      by_cases h : balancedBraces bs
      · simp [applyTransform, h, balancedBraces_minify, minify_idem]
      · simp [applyTransform, h]
  | TypeScript => rfl
  | Image => rfl
  | Other => rfl

lemma applyTransform_len_le (c : FileCategory) (bs : List Nat) :
    (applyTransform c bs).1.length ≤ bs.length := by
  cases c with
  | HTML => exact List.length_filter_le _ _
  | CSS => exact List.length_filter_le _ _
  | SCSS =>
      by_cases h : balancedBraces bs
      · simpa [applyTransform, h] using List.length_filter_le (fun b => !isWSByte b) bs
      · simp [applyTransform, h]
  | JavaScript =>
      by_cases h : balancedBraces bs
      · simpa [applyTransform, h] using List.length_filter_le (fun b => !isWSByte b) bs
      · simp [applyTransform, h]
  | TypeScript => exact Nat.le_refl _
  | Image => exact Nat.le_refl _
  | Other => exact Nat.le_refl _

lemma sniffCategory_passthrough (p : List Nat) (bs : List Nat) :
    applyTransform (sniffCategory p) bs = (bs, .Skipped, none) := by
  unfold sniffCategory
  split <;> rfl

lemma transformFile_path (f : SourceFile) : (transformFile f).path = f.path := rfl

lemma transformFile_outputBytes (f : SourceFile) :
    (transformFile f).outputBytes =
      (applyTransform (classify f.path (f.bytes.take sniffLimit)) f.bytes).1 := rfl

lemma transformFile_optimizedSize (f : SourceFile) :
    (transformFile f).optimizedSize = (transformFile f).outputBytes.length := rfl

lemma transformFile_len_le (f : SourceFile) :
    (transformFile f).outputBytes.length ≤ f.bytes.length :=
  applyTransform_len_le _ _

lemma classify_outputFile (f : SourceFile) :
    classify f.path ((transformFile f).outputBytes.take sniffLimit) =
      classify f.path (f.bytes.take sniffLimit) := by
  cases h : extCategory f.path with
  | some c => simp [classify, h]
  | none =>
      have hob : (transformFile f).outputBytes = f.bytes := by
        rw [transformFile_outputBytes]
        simp only [classify, h]
        rw [sniffCategory_passthrough]
      rw [hob]

lemma transformFile_fix (f : SourceFile) :
    transformFile (outputFile f) =
      { transformFile f with originalSize := (transformFile f).optimizedSize } := by
  have hcl : classify (outputFile f).path ((outputFile f).bytes.take sniffLimit) =
      classify f.path (f.bytes.take sniffLimit) := classify_outputFile f
  have hap : applyTransform (classify f.path (f.bytes.take sniffLimit))
        (outputFile f).bytes =
      applyTransform (classify f.path (f.bytes.take sniffLimit)) f.bytes := by
    have : (outputFile f).bytes =
        (applyTransform (classify f.path (f.bytes.take sniffLimit)) f.bytes).1 := rfl
    rw [this]
    exact applyTransform_idem _ _
  show ({ path := (outputFile f).path
          category := classify (outputFile f).path ((outputFile f).bytes.take sniffLimit)
          originalSize := (outputFile f).bytes.length
          optimizedSize := (applyTransform (classify (outputFile f).path
            ((outputFile f).bytes.take sniffLimit)) (outputFile f).bytes).1.length
          status := (applyTransform (classify (outputFile f).path
            ((outputFile f).bytes.take sniffLimit)) (outputFile f).bytes).2.1
          errorDetail := (applyTransform (classify (outputFile f).path
            ((outputFile f).bytes.take sniffLimit)) (outputFile f).bytes).2.2
          outputBytes := (applyTransform (classify (outputFile f).path
            ((outputFile f).bytes.take sniffLimit)) (outputFile f).bytes).1 } :
        TransformOutcome) = _
  rw [hcl, hap]
  rfl

end Optimize

namespace Optimize

/-! ## Reader / pipeline destructuring lemmas -/

lemma filesSize_readerFiles (entries : List ArchiveEntry) :
    filesSize (readerFiles entries) = entriesSize entries := by
  simp [filesSize, readerFiles, entriesSize, List.map_map, Function.comp_def]

lemma runPipeline_eq_ok (cfg : Config) (entries : List ArchiveEntry) (σ : List Nat)
    (ht : cfg.timeBudgetExceeded = false)
    (hs : entriesSize entries ≤ cfg.sizeCeiling)
    (hu : (regularEntries entries).any (fun e => isUnsafePath e.path) = false)
    (hne : (regularEntries entries).isEmpty = false) :
    runPipeline cfg entries σ =
      .ok (writeArchive (collectOutcomes (readerFiles entries) σ),
           aggregate (collectOutcomes (readerFiles entries) σ)) := by
  have hlt : ¬ cfg.sizeCeiling < entriesSize entries := Nat.not_lt.mpr hs
  have hfs : ¬ cfg.sizeCeiling < filesSize (readerFiles entries) := by
    rw [filesSize_readerFiles]; exact hlt
  have hfs2 : ¬ cfg.sizeCeiling <
      filesSize ((regularEntries entries).map (fun e =>
        ({ path := e.path, bytes := e.bytes, declaredType := e.declaredType } :
          SourceFile))) := by
    simpa [readerFiles] using hfs
  simp [runPipeline, readArchive, orchestrate, hlt, hu, hne, ht, hfs2, readerFiles]

lemma runPipeline_ok_inv (cfg : Config) (entries : List ArchiveEntry) (σ : List Nat)
    (out : List (String × List Nat)) (rep : OptimizationReport)
    (h : runPipeline cfg entries σ = .ok (out, rep)) :
    cfg.timeBudgetExceeded = false ∧
    entriesSize entries ≤ cfg.sizeCeiling ∧
    (regularEntries entries).any (fun e => isUnsafePath e.path) = false ∧
    (regularEntries entries).isEmpty = false ∧
    out = writeArchive (collectOutcomes (readerFiles entries) σ) ∧
    rep = aggregate (collectOutcomes (readerFiles entries) σ) := by
  by_cases h₁ : cfg.sizeCeiling < entriesSize entries
  · simp [runPipeline, readArchive, h₁] at h
  · by_cases h₂ : (regularEntries entries).any (fun e => isUnsafePath e.path) = true
    · simp [runPipeline, readArchive, h₁, h₂] at h
    · by_cases h₃ : (regularEntries entries).isEmpty = true
      · simp [runPipeline, readArchive, h₁, h₂, h₃] at h
      · by_cases h₄ : cfg.timeBudgetExceeded = true
        · simp [runPipeline, readArchive, orchestrate, h₁, h₂, h₃, h₄] at h
        · have h₅ : ¬ cfg.sizeCeiling < filesSize (readerFiles entries) := by
            rw [filesSize_readerFiles]; exact h₁
          have heq := runPipeline_eq_ok cfg entries σ
            (eq_false_of_ne_true h₄) (Nat.not_lt.mp h₁)
            (eq_false_of_ne_true h₂) (eq_false_of_ne_true h₃)
          rw [heq] at h
          simp only [Except.ok.injEq, Prod.mk.injEq] at h
          exact ⟨eq_false_of_ne_true h₄, Nat.not_lt.mp h₁, eq_false_of_ne_true h₂,
            eq_false_of_ne_true h₃, h.1.symm, h.2.symm⟩

lemma collectOutcomes_path_mem (files : List SourceFile) (σ : List Nat)
    (o : TransformOutcome) (ho : o ∈ collectOutcomes files σ) :
    o.path = "" ∨ o.path ∈ files.map SourceFile.path := by
  unfold collectOutcomes at ho
  obtain ⟨pr, hpr, hpro⟩ := List.mem_map.mp ho
  rw [List.mem_insertionSort] at hpr
  obtain ⟨i, _, hip⟩ := List.mem_map.mp hpr
  by_cases hi : i < files.length
  · right
    have hg : files.getD i dummyFile = files.get ⟨i, hi⟩ := List.getD_eq_get files dummyFile hi
    rw [← hpro, ← hip]
    show (transformFile (files.getD i dummyFile)).path ∈ _
    rw [transformFile_path, hg]
    exact List.mem_map_of_mem SourceFile.path (List.get_mem files i hi)
  · left
    rw [← hpro, ← hip]
    show (transformFile (files.getD i dummyFile)).path = ""
    rw [List.getD_eq_default files dummyFile (Nat.le_of_not_lt hi)]
    rfl

end Optimize

namespace Optimize

/-! ## Re-running the pipeline on its own output -/

lemma regularEntries_outputEntries (out : List (String × List Nat)) :
    regularEntries (outputEntries out) = outputEntries out := by
  refine List.filter_eq_self.mpr ?_
  intro a ha
  obtain ⟨pr, _, hpr⟩ := List.mem_map.mp ha
  rw [← hpr]
  rfl

lemma readerFiles_outputEntries (out : List (String × List Nat)) :
    readerFiles (outputEntries out) =
      out.map (fun pr => { path := pr.1, bytes := pr.2 }) := by
  rw [readerFiles, regularEntries_outputEntries, outputEntries, List.map_map]
  rfl

lemma writeArchive_map_transformFile (files : List SourceFile) :
    writeArchive (files.map transformFile) =
      files.map (fun f => (f.path, (transformFile f).outputBytes)) := by
  rw [writeArchive, List.map_map]
  rfl

lemma secondRun_files (files : List SourceFile) :
    readerFiles (outputEntries
        (files.map (fun f => (f.path, (transformFile f).outputBytes)))) =
      files.map outputFile := by
  rw [readerFiles_outputEntries, List.map_map]
  rfl

lemma secondRun_outcomes (files : List SourceFile) :
    (files.map outputFile).map transformFile = files.map refreshOutcome := by
  rw [List.map_map]
  exact List.map_congr_left (fun f _ => transformFile_fix f)

lemma secondRun_write (files : List SourceFile) :
    writeArchive (files.map refreshOutcome) =
      files.map (fun f => (f.path, (transformFile f).outputBytes)) := by
  rw [writeArchive, List.map_map]
  rfl

lemma secondRun_percent (files : List SourceFile) :
    (aggregate (files.map refreshOutcome)).sizeReductionPercent = 0 := by
  rw [aggregate_percent]
  have hmaps : (files.map refreshOutcome).map (fun o => o.originalSize) =
      (files.map refreshOutcome).map (fun o => o.optimizedSize) := by
    rw [List.map_map, List.map_map]
    rfl
  have hmapsQ : (files.map refreshOutcome).map (fun o => (o.originalSize : ℚ)) =
      (files.map refreshOutcome).map (fun o => (o.optimizedSize : ℚ)) := by
    rw [List.map_map, List.map_map]
    rfl
  rw [hmaps, hmapsQ]
  by_cases h : ((files.map refreshOutcome).map (fun o => o.optimizedSize)).sum = 0
  · rw [if_pos h]
  · rw [if_neg h, sub_self, zero_div, zero_mul]

end Optimize

namespace Optimize

lemma runPipeline_second (cfg : Config) (entries : List ArchiveEntry) (σ : List Nat)
    (out : List (String × List Nat)) (rep : OptimizationReport)
    (hσ : σ.Perm (List.range (readerFiles entries).length))
    (h : runPipeline cfg entries σ = .ok (out, rep)) :
    runPipeline cfg (outputEntries out) (List.range out.length) =
      .ok (out, aggregate ((readerFiles entries).map refreshOutcome)) := by
  obtain ⟨ht, hs, hu, hne, hout, -⟩ := runPipeline_ok_inv cfg entries σ out rep h
  have hco : collectOutcomes (readerFiles entries) σ =
      (readerFiles entries).map transformFile := collectOutcomes_eq _ hσ
  have hout2 : out = (readerFiles entries).map
      (fun f => (f.path, (transformFile f).outputBytes)) := by
    rw [hout, hco, writeArchive_map_transformFile]
  have hreg2 : regularEntries (outputEntries out) = outputEntries out :=
    regularEntries_outputEntries out
  have hfiles2 : readerFiles (outputEntries out) =
      (readerFiles entries).map outputFile := by
    rw [hout2]
    exact secondRun_files (readerFiles entries)
  have hmono : filesSize ((readerFiles entries).map outputFile) ≤
      filesSize (readerFiles entries) := by
    rw [filesSize, filesSize, List.map_map]
    exact List.sum_le_sum (fun f _ => transformFile_len_le f)
  have hsize2 : entriesSize (outputEntries out) ≤ cfg.sizeCeiling := by
    have he : entriesSize (outputEntries out) =
        filesSize ((readerFiles entries).map outputFile) := by
      rw [← hfiles2, filesSize_readerFiles]
    rw [he]
    exact Nat.le_trans hmono (by rw [filesSize_readerFiles]; exact hs)
  have hany : (outputEntries out).any (fun e => isUnsafePath e.path) =
      (regularEntries entries).any (fun e => isUnsafePath e.path) := by
    rw [hout2]
    simp [outputEntries, readerFiles, List.any_map, Function.comp_def]
  have hu2 : (regularEntries (outputEntries out)).any
      (fun e => isUnsafePath e.path) = false := by
    rw [hreg2, hany]
    exact hu
  have hne' : regularEntries entries ≠ [] := by
    intro hnil
    rw [hnil] at hne
    simp at hne
  have hlenO : (outputEntries out).length = (regularEntries entries).length := by
    rw [outputEntries, List.length_map, hout2, List.length_map, readerFiles,
      List.length_map]
  have hne2 : (regularEntries (outputEntries out)).isEmpty = false := by
    rw [hreg2, Bool.eq_false_iff]
    intro hT
    have hnil : outputEntries out = [] := by
      cases houtE : outputEntries out with
      | nil => rfl
      | cons a t => rw [houtE] at hT; simp at hT
    rw [hnil] at hlenO
    exact hne' (List.length_eq_zero.mp (by simpa using hlenO.symm))
  have hrun2 := runPipeline_eq_ok cfg (outputEntries out) (List.range out.length)
    ht hsize2 hu2 hne2
  rw [hrun2]
  have hlen2 : out.length = (readerFiles (outputEntries out)).length := by
    rw [hfiles2, List.length_map, hout2, List.length_map]
  have hco2 : collectOutcomes (readerFiles (outputEntries out))
      (List.range out.length) =
      (readerFiles (outputEntries out)).map transformFile := by
    apply collectOutcomes_eq
    rw [hlen2]
  rw [hco2, hfiles2, secondRun_outcomes, secondRun_write, ← hout2]

end Optimize

namespace Optimize

lemma readArchive_ok_files (cfg : Config) (entries : List ArchiveEntry)
    (files : List SourceFile) (h : readArchive cfg entries = .ok files) :
    files = readerFiles entries := by
  unfold readArchive at h
  by_cases h₁ : cfg.sizeCeiling < entriesSize entries
  · simp [h₁] at h
  · by_cases h₂ : (regularEntries entries).any (fun e => isUnsafePath e.path) = true
    · simp [h₁, h₂] at h
    · by_cases h₃ : (regularEntries entries).isEmpty = true
      · simp [h₁, h₂, h₃] at h
      · simp [h₁, h₂, h₃] at h
        rw [← h]
        rfl

/-- C1: for every valid input archive processed to completion (any worker
schedule that is a permutation of the file indices), every SourceFile yields
exactly one TransformOutcome, the report satisfies filesOptimized +
filesFailed + filesSkipped = totalFiles, and the output archive contains
exactly one entry per input SourceFile path in input order, so its entry
count equals totalFiles. -/
theorem claim_C1 (cfg : Config) (entries : List ArchiveEntry) (σ : List Nat)
    (out : List (String × List Nat)) (rep : OptimizationReport)
    (hσ : σ.Perm (List.range (readerFiles entries).length))
    (h : runPipeline cfg entries σ = .ok (out, rep)) :
    rep.filesOptimized + rep.filesFailed + rep.filesSkipped = rep.totalFiles ∧
    rep.totalFiles = (readerFiles entries).length ∧
    out.length = rep.totalFiles ∧
    out.map Prod.fst = (readerFiles entries).map SourceFile.path := by
  obtain ⟨-, -, -, -, hout, hrep⟩ := runPipeline_ok_inv cfg entries σ out rep h
  have hco := collectOutcomes_eq (readerFiles entries) hσ
  rw [hco] at hout hrep
  have hcounts := aggregate_counts ((readerFiles entries).map transformFile)
  refine ⟨?_, ?_, ?_, ?_⟩
  · rw [hrep, hcounts.1, hcounts.2.1, hcounts.2.2, aggregate_totalFiles,
      countStatus_partition]
  · rw [hrep, aggregate_totalFiles, List.length_map]
  · rw [hrep, hout, aggregate_totalFiles, writeArchive, List.length_map,
      List.length_map]
  · rw [hout, writeArchive_map_transformFile, List.map_map]
    rfl

/-- C3: the aggregator folds the outcome sequence into byte totals that are
exactly the sums of the per-outcome sizes, computes sizeReductionPercent =
(totalOriginalBytes - totalOptimizedBytes) / totalOriginalBytes * 100, and
defines the result to be 0 when totalOriginalBytes = 0, never performing a
division by zero. -/
theorem claim_C3 (outs : List TransformOutcome) :
    (aggregate outs).totalOriginalBytes = (outs.map (fun o => o.originalSize)).sum ∧
    (aggregate outs).totalOptimizedBytes = (outs.map (fun o => o.optimizedSize)).sum ∧
    (aggregate outs).sizeReductionPercent =
      (if (aggregate outs).totalOriginalBytes = 0 then 0
       else (((aggregate outs).totalOriginalBytes : ℚ) -
              ((aggregate outs).totalOptimizedBytes : ℚ)) /
            ((aggregate outs).totalOriginalBytes : ℚ) * 100) ∧
    ((aggregate outs).totalOriginalBytes = 0 →
      (aggregate outs).sizeReductionPercent = 0) := by
  refine ⟨aggregate_totalOriginalBytes outs, aggregate_totalOptimizedBytes outs,
    rfl, ?_⟩
  intro h0
  have h3 : (aggregate outs).sizeReductionPercent =
      (if (aggregate outs).totalOriginalBytes = 0 then (0 : ℚ)
       else (((aggregate outs).totalOriginalBytes : ℚ) -
              ((aggregate outs).totalOptimizedBytes : ℚ)) /
            ((aggregate outs).totalOriginalBytes : ℚ) * 100) := rfl
  rw [h3, if_pos h0]

/-- C4: the pipeline is deterministic in the dispatch/completion order — for
any two schedules that are permutations of the file indices, byte-identical
input archives with identical configuration produce identical output
archives and identical reports, because the Writer re-sorts outcomes by
original archive order before serialization. -/
theorem claim_C4 (cfg : Config) (entries : List ArchiveEntry) (σ₁ σ₂ : List Nat)
    (h₁ : σ₁.Perm (List.range (readerFiles entries).length))
    (h₂ : σ₂.Perm (List.range (readerFiles entries).length)) :
    runPipeline cfg entries σ₁ = runPipeline cfg entries σ₂ := by
  unfold runPipeline
  cases hr : readArchive cfg entries with
  | error e => rfl
  | ok files =>
      have hf : files = readerFiles entries := readArchive_ok_files cfg entries files hr
      subst hf
      have e₁ := collectOutcomes_eq (readerFiles entries) h₁
      have e₂ := collectOutcomes_eq (readerFiles entries) h₂
      simp [orchestrate, e₁, e₂]

/-- C5: an archive containing a path entry that escapes the archive root
(such as ../../etc/passwd) makes the whole operation fail with UnsafePath
(given it passes the size check performed first), and on success every entry
of the output archive has a safe path, so no file is ever written outside
the output archive's namespace. -/
theorem claim_C5 (cfg : Config) (entries : List ArchiveEntry) (σ : List Nat) :
    ((regularEntries entries).any (fun e => isUnsafePath e.path) = true →
      entriesSize entries ≤ cfg.sizeCeiling →
      runPipeline cfg entries σ = .error .UnsafePath) ∧
    (∀ out rep, runPipeline cfg entries σ = .ok (out, rep) →
      ∀ pr ∈ out, isUnsafePath pr.1 = false) := by
  constructor
  · intro hu hs
    have hlt : ¬ cfg.sizeCeiling < entriesSize entries := Nat.not_lt.mpr hs
    simp [runPipeline, readArchive, hlt, hu]
  · intro out rep h pr hpr
    obtain ⟨-, -, hu, -, hout, -⟩ := runPipeline_ok_inv cfg entries σ out rep h
    rw [hout] at hpr
    obtain ⟨o, ho, hpro⟩ := List.mem_map.mp hpr
    rw [← hpro]
    show isUnsafePath o.path = false
    rcases collectOutcomes_path_mem (readerFiles entries) σ o ho with hemp | hmem
    · rw [hemp]
      rfl
    · obtain ⟨f, hf, hfp⟩ := List.mem_map.mp hmem
      rw [← hfp]
      rw [readerFiles] at hf
      obtain ⟨e2, he2, hfe⟩ := List.mem_map.mp hf
      rw [← hfe]
      show isUnsafePath e2.path = false
      have hall : ∀ x ∈ regularEntries entries, isUnsafePath x.path = false := by
        simpa [List.any_eq_false] using hu
      exact hall e2 he2

/-- C6: in the batch state machine, a single file's Failed outcome never
causes a transition to Aborted: the batch aborts only on a resource-limit
breach (wall-clock budget exceeded, archive too large), carrying a single
top-level error; within the limits it always completes with the full
outcome sequence regardless of per-file failures, and an aborted pipeline
run yields no output archive. -/
theorem claim_C6 (cfg : Config) (files : List SourceFile) (σ : List Nat) :
    (∀ e, orchestrate cfg files σ = .Aborted e →
      (e = .Timeout ∧ cfg.timeBudgetExceeded = true) ∨
      (e = .ArchiveTooLarge ∧ cfg.sizeCeiling < filesSize files)) ∧
    (cfg.timeBudgetExceeded = false → filesSize files ≤ cfg.sizeCeiling →
      orchestrate cfg files σ = .Completed (collectOutcomes files σ)) ∧
    (∀ (entries : List ArchiveEntry) e, runPipeline cfg entries σ = .error e →
      ∀ out rep, runPipeline cfg entries σ ≠ .ok (out, rep)) := by
  refine ⟨?_, ?_, ?_⟩
  · intro e he
    unfold orchestrate at he
    split at he
    · left
      injection he with h'
      exact ⟨h'.symm, by assumption⟩
    · split at he
      · right
        injection he with h'
        exact ⟨h'.symm, by assumption⟩
      · simp at he
  · intro ht hs
    simp [orchestrate, ht, Nat.not_lt.mpr hs]
  · intro entries e he out rep hok
    rw [he] at hok
    simp at hok

/-- C7: every registered transform is idempotent — applying a transform to
its own output changes nothing, so running the pipeline a second time on its
own output archive reproduces the archive byte-identically and reports a
sizeReductionPercent of exactly 0 (at most any small epsilon above zero). -/
theorem claim_C7 :
    (∀ (c : FileCategory) (bs : List Nat),
      applyTransform c (applyTransform c bs).1 = applyTransform c bs) ∧
    (∀ (cfg : Config) (entries : List ArchiveEntry) (σ : List Nat) out rep,
      σ.Perm (List.range (readerFiles entries).length) →
      runPipeline cfg entries σ = .ok (out, rep) →
      ∃ rep₂, runPipeline cfg (outputEntries out) (List.range out.length) =
          .ok (out, rep₂) ∧ rep₂.sizeReductionPercent = 0) := by
  refine ⟨applyTransform_idem, ?_⟩
  intro cfg entries σ out rep hσ h
  exact ⟨aggregate ((readerFiles entries).map refreshOutcome),
    runPipeline_second cfg entries σ out rep hσ h,
    secondRun_percent (readerFiles entries)⟩

/-- C8: the archive ingestion entry point has a configurable size ceiling
whose configured value is MAX_FILE_SIZE = 52428800 bytes (50 MiB, the
Dockerfile declaration); every archive whose cumulative size exceeds the
ceiling fails with the typed error ArchiveTooLarge and no output archive is
produced. -/
theorem claim_C8 :
    MAX_FILE_SIZE = 52428800 ∧ defaultConfig.sizeCeiling = MAX_FILE_SIZE ∧
    ∀ (cfg : Config) (entries : List ArchiveEntry) (σ : List Nat),
      cfg.sizeCeiling < entriesSize entries →
      runPipeline cfg entries σ = .error .ArchiveTooLarge := by
  refine ⟨rfl, rfl, ?_⟩
  intro cfg entries σ hlt
  simp [runPipeline, readArchive, hlt]

end Optimize

namespace Optimize

/-- Witness for C1: the two-file archive `entriesW`, dispatched in reversed
order, completes with the counts and the one-entry-per-input-path archive
the theorem guarantees. -/
theorem claim_C1_witness :
    repW.filesOptimized + repW.filesFailed + repW.filesSkipped = repW.totalFiles ∧
    repW.totalFiles = (readerFiles entriesW).length ∧
    outW.length = repW.totalFiles ∧
    outW.map Prod.fst = (readerFiles entriesW).map SourceFile.path :=
  claim_C1 defaultConfig entriesW [1, 0] outW repW (by decide) (by rfl)

/-- Witness for C3: on the empty outcome sequence the original-byte total is
zero and the reduction percent is defined to be zero. -/
theorem claim_C3_witness :
    (aggregate []).totalOriginalBytes = 0 ∧
    (aggregate []).sizeReductionPercent = 0 :=
  ⟨rfl, (claim_C3 []).2.2.2 rfl⟩

/-- Witness for C4: on the two-file archive `entriesW`, the reversed
schedule and the in-order schedule produce identical pipeline results. -/
theorem claim_C4_witness :
    ([1, 0] : List Nat).Perm (List.range (readerFiles entriesW).length) ∧
    ([0, 1] : List Nat).Perm (List.range (readerFiles entriesW).length) ∧
    runPipeline defaultConfig entriesW [1, 0] =
      runPipeline defaultConfig entriesW [0, 1] :=
  ⟨by decide, by decide,
   claim_C4 defaultConfig entriesW [1, 0] [0, 1] (by decide) (by decide)⟩

/-- Witness for C5: an archive whose single entry is ../../etc/passwd fails
with UnsafePath. -/
theorem claim_C5_witness :
    runPipeline defaultConfig [{ path := "../../etc/passwd", bytes := [1] }] [0] =
      .error .UnsafePath :=
  (claim_C5 defaultConfig [{ path := "../../etc/passwd", bytes := [1] }] [0]).1
    (by decide) (by decide)

/-- Witness for C6: a batch whose only file produces a Failed outcome (a
malformed SCSS file) still completes rather than aborting. -/
theorem claim_C6_witness :
    orchestrate defaultConfig [{ path := "a.scss", bytes := [123] }] [0] =
      .Completed (collectOutcomes [{ path := "a.scss", bytes := [123] }] [0]) ∧
    (collectOutcomes [{ path := "a.scss", bytes := [123] }] [0]).map
        (fun o => o.status) = [.Failed] :=
  ⟨(claim_C6 defaultConfig [{ path := "a.scss", bytes := [123] }] [0]).2.1
      rfl (by decide),
   by decide⟩

/-- Witness for C7: re-running the pipeline on the output archive produced
from `entriesW` reproduces that archive with a zero reduction percent. -/
theorem claim_C7_witness :
    ∃ rep₂, runPipeline defaultConfig (outputEntries outW)
        (List.range outW.length) = .ok (outW, rep₂) ∧
      rep₂.sizeReductionPercent = 0 :=
  claim_C7.2 defaultConfig entriesW [1, 0] outW repW (by decide) (by rfl)

/-- Witness for C8: with the ceiling configured to 2 bytes, a 3-byte archive
fails with ArchiveTooLarge. -/
theorem claim_C8_witness :
    ({ sizeCeiling := 2 } : Config).sizeCeiling <
        entriesSize [{ path := "a.css", bytes := [1, 2, 3] }] ∧
    runPipeline { sizeCeiling := 2 } [{ path := "a.css", bytes := [1, 2, 3] }] [0] =
      .error .ArchiveTooLarge :=
  ⟨by decide,
   claim_C8.2.2 { sizeCeiling := 2 } [{ path := "a.css", bytes := [1, 2, 3] }] [0]
     (by decide)⟩

end Optimize

namespace Frontend

/-- Counterexample for C2: a report carrying exactly the field names the
claim declares as the stable contract (totalFiles, sizeReductionPercent, a
failures list) is not read by the actual consumer — the Dashboard's
accessors return nothing on it (rendered as N/A), because the code reads
stats.total_files and stats.size_reduction instead. -/
theorem claim_C2_counterexample :
    specNamedReport.lookup "totalFiles" = some (.num 3) ∧
    specNamedReport.lookup "sizeReductionPercent" = some (.num 12) ∧
    dashboardTotalFiles specNamedReport = none ∧
    dashboardSizeReduction specNamedReport = none :=
  ⟨rfl, rfl, rfl, rfl⟩

/-- C2 (amended): the report is exposed to the caller as a structured,
serializable value attached alongside the binary archive (the
X-Optimization-Report response header, stored into the result by
handleFileUpload), but the field names the Dashboard consumer actually
reads are stats.total_files and stats.size_reduction (snake_case under a
stats object), not totalFiles / sizeReductionPercent. -/
theorem claim_C2 (n q : ℚ) (resp : UploadResponse) :
    dashboardTotalFiles (codeShapedReport n q) = some (.num n) ∧
    dashboardSizeReduction (codeShapedReport n q) = some (.num q) ∧
    (resp.ok = true → verifyZipFile resp.blob = true →
      (handleFileUpload resp).result = some
        { downloadBlob := resp.blob
          report := resp.reportHeader
          message := "Optimization complete!" }) := by
  refine ⟨rfl, rfl, ?_⟩
  intro hok hzip
  simp [handleFileUpload, hok, hzip]

/-- Witness for C2: a snake_case report with 3 files and 12 percent is read
by the Dashboard accessors, and a valid PK-blob response stores its header
report in the result. -/
theorem claim_C2_witness :
    dashboardTotalFiles (codeShapedReport 3 12) = some (.num 3) ∧
    dashboardSizeReduction (codeShapedReport 3 12) = some (.num 12) ∧
    (handleFileUpload
        { ok := true, errDetail := none, blob := [0x50, 0x4B, 3, 4],
          reportHeader := none }).result = some
      { downloadBlob := [0x50, 0x4B, 3, 4], report := none,
        message := "Optimization complete!" } := by
  have h := claim_C2 3 12
    { ok := true, errDetail := none, blob := [0x50, 0x4B, 3, 4],
      reportHeader := none }
  exact ⟨h.1, h.2.1, h.2.2 rfl rfl⟩

/-- C9: a server blob is accepted as a result exactly when the response is
ok and the blob passes verifyZipFile, which holds exactly when the blob has
at least 4 bytes and starts with 0x50 0x4B (the ZIP PK magic); a blob
failing the check sets the error "Invalid ZIP file received from server",
leaves the result null, and offers no download. -/
theorem claim_C9 (resp : UploadResponse) (blob : List Nat) :
    (verifyZipFile blob = true ↔
      4 ≤ blob.length ∧ blob.get? 0 = some 0x50 ∧ blob.get? 1 = some 0x4B) ∧
    ((handleFileUpload resp).result.isSome = true ↔
      resp.ok = true ∧ verifyZipFile resp.blob = true) ∧
    (resp.ok = true → verifyZipFile resp.blob = false →
      (handleFileUpload resp).error = some "Invalid ZIP file received from server" ∧
      (handleFileUpload resp).result = none ∧
      downloadOffered (handleFileUpload resp) = false) := by
  refine ⟨?_, ?_, ?_⟩
  · match blob with
    | [] => simp [verifyZipFile]
    | [b0] => simp [verifyZipFile]
    | b0 :: b1 :: rest =>
        by_cases hl : (b0 :: b1 :: rest).length < 4
        · rw [verifyZipFile, if_pos hl]
          constructor
          · intro hF
            exact absurd hF (by simp)
          · intro hc
            exact absurd hc.1 (by omega)
        · have hge : 4 ≤ (b0 :: b1 :: rest).length := Nat.le_of_not_lt hl
          rw [verifyZipFile, if_neg hl]
          simp only [List.length_cons] at hge
          simp [Bool.and_eq_true]
          intro _ _
          omega
  · cases hok : resp.ok <;> cases hzip : verifyZipFile resp.blob <;>
      simp [handleFileUpload, hok, hzip]
  · intro hok hzip
    simp [handleFileUpload, downloadOffered, hok, hzip]

/-- Witness for C9: the 3-byte blob [1, 2, 3] from an otherwise ok response
fails verification, yields the invalid-ZIP error, a null result, and no
download. -/
theorem claim_C9_witness :
    verifyZipFile [1, 2, 3] = false ∧
    (handleFileUpload
        { ok := true, errDetail := none, blob := [1, 2, 3],
          reportHeader := none }).error =
      some "Invalid ZIP file received from server" ∧
    (handleFileUpload
        { ok := true, errDetail := none, blob := [1, 2, 3],
          reportHeader := none }).result = none ∧
    downloadOffered (handleFileUpload
        { ok := true, errDetail := none, blob := [1, 2, 3],
          reportHeader := none }) = false := by
  have h := (claim_C9
    { ok := true, errDetail := none, blob := [1, 2, 3], reportHeader := none }
    []).2.2 rfl rfl
  exact ⟨rfl, h.1, h.2.1, h.2.2⟩

/-- C10: the FileUpload component forwards at most one file per drop to
onFileUpload — exactly the head of the accepted-files list and nothing on an
empty list — and its dropzone accepts only the two ZIP MIME types (.zip),
with a 100 MB (100 * 1024 * 1024 bytes) size cap and multiple selection
disabled. -/
theorem claim_C10 :
    (∀ fs : List DroppedFile, onDropCalls fs = fs.head?.toList) ∧
    (∀ fs : List DroppedFile, (onDropCalls fs).length ≤ 1) ∧
    onDropCalls [] = [] ∧
    fileUploadDropzone.maxSize = 100 * 1024 * 1024 ∧
    fileUploadDropzone.multiple = false ∧
    fileUploadDropzone.acceptTypes =
      [("application/zip", [".zip"]), ("application/x-zip-compressed", [".zip"])] := by
  refine ⟨?_, ?_, rfl, rfl, rfl, rfl⟩
  · intro fs
    cases fs <;> rfl
  · intro fs
    cases fs <;> simp [onDropCalls]

end Frontend
